import Mathlib

/-!
Verification of the training/evaluation orchestration of `main.py`
(YOLOv11-pt).  Shallow embedding: each definition below mirrors a
specific fragment of the Python source, named with the line numbers it
comes from.  Machine floats that only carry exact small rationals are
modelled as `ℚ`; Python integers as `ℤ`/`ℕ`; file side effects as
explicit action lists; an uncaught Python exception truncates the
remaining actions of the enclosing call, since `main.py` installs no
handler.
-/

namespace YoloTrain

/-! ### RunConfig derivation (main.py lines 43-44)

`accumulate = max(round(64 / (args.batch_size * args.world_size)), 1)`
`params['weight_decay'] *= args.batch_size * args.world_size * accumulate / 64`

Python's built-in `round` is round-half-to-even; `64 / x` is true
division, modelled exactly over `ℚ` (for the magnitudes involved the
IEEE double `64 / x` rounds to the same integer as the exact rational).
-/

/-- Python's `round` (banker's rounding, half to even) on an exact rational. -/
def pythonRound (q : ℚ) : ℤ :=
  let f := ⌊q⌋
  let frac := q - f
  if frac < 1/2 then f
  else if 1/2 < frac then f + 1
  else if Even f then f else f + 1

/-- main.py line 43: `accumulate = max(round(64 / (batch_size * world_size)), 1)`. -/
def accumulate (batch_size world_size : ℕ) : ℤ :=
  max (pythonRound (64 / (batch_size * world_size : ℚ))) 1

/-- main.py line 44: the configured weight decay is multiplied in place by
`batch_size * world_size * accumulate / 64`. -/
def scaledWeightDecay (wd : ℚ) (batch_size world_size : ℕ) : ℚ :=
  wd * ((batch_size * world_size : ℚ) * (accumulate batch_size world_size : ℚ) / 64)

/-- The spec's own formula for the accumulation count, with the standard
mathematical rounding convention (round half up, Mathlib's `round`) in
place of Python's half-to-even `round`.  Used to compare the spec's words
with the source's behaviour. -/
def accumulateSpec (batch_size world_size : ℕ) : ℤ :=
  max (round (64 / (batch_size * world_size : ℚ))) 1

/-! ### Accumulation boundary (main.py lines 134, 159)

`step = i + num_steps * epoch` and `if step % accumulate == 0:` guards the
optimizer update attempt. -/

/-- main.py line 134: the global step counter for micro-step `i` of epoch `epoch`
with `num_steps` micro-steps per epoch. -/
def globalStep (i num_steps epoch : ℕ) : ℕ :=
  i + num_steps * epoch

/-- main.py line 159: an optimizer update is attempted at a step iff
`step % accumulate == 0`. -/
def shouldUpdate (step acc : ℕ) : Bool :=
  step % acc == 0

/-- Number of micro-steps among global steps `0, …, n-1` at which an optimizer
update is attempted. -/
def updateAttempts (n acc : ℕ) : ℕ :=
  (List.range n).countP (fun k => shouldUpdate k acc)

/-! ### Inside the `step % accumulate == 0` branch (main.py lines 159-166)

```
if step % accumulate == 0:
    amp_scale.step(optimizer)   # steps the optimizer only if grads are finite
    amp_scale.update()
    optimizer.zero_grad()
    if ema:
        ema.update(model)
```

`torch.amp.GradScaler.step` silently skips the optimizer step when the
gradients overflowed (contain inf/nan); whether step `k`'s gradients
overflow is an oracle `overflow : ℕ → Bool`.  `ema` is the EMA object when
`local_rank == 0` (main.py line 50: `ema = util.EMA(model) if args.local_rank == 0
else None`) and `None` otherwise, so `if ema:` is the flag `emaPresent`. -/

/-- Whether the optimizer's parameters are actually stepped at global step `k`:
the accumulation boundary must be hit AND the scaler must not skip. -/
def optimizerStepped (overflow : ℕ → Bool) (acc k : ℕ) : Bool :=
  shouldUpdate k acc && !(overflow k)

/-- Whether `ema.update(model)` runs at global step `k`: the code calls it
whenever the accumulation boundary is hit and the EMA object exists,
with no check of whether the scaler skipped. -/
def emaUpdated (emaPresent : Bool) (acc k : ℕ) : Bool :=
  shouldUpdate k acc && emaPresent

/-- Number of actual optimizer updates over global steps `0, …, n-1`. -/
def optimizerStepCount (overflow : ℕ → Bool) (acc n : ℕ) : ℕ :=
  (List.range n).countP (fun k => optimizerStepped overflow acc k)

/-- Number of `ema.update` calls over global steps `0, …, n-1`. -/
def emaUpdateCount (emaPresent : Bool) (acc n : ℕ) : ℕ :=
  (List.range n).countP (fun k => emaUpdated emaPresent acc k)

/-! ### End-of-epoch checkpointing (main.py lines 194-212)

```
if current_mAP > best:
    best = current_mAP
...
torch.save(save, f'./weights/last_..._.pt')      # unconditional
if best == current_mAP:
    torch.save(save, f'./weights/best_..._.pt')
```
-/

/-- One epoch's checkpoint decision.  Input: running best metric and this
epoch's mAP.  Output: (new best, last saved?, best saved?).  `last` is
saved unconditionally; `best` is saved when `best == current_mAP` holds
AFTER the running best was updated. -/
def processEpoch (best current : ℚ) : ℚ × Bool × Bool :=
  let best' := if current > best then current else best
  (best', true, decide (best' = current))

/-- The per-epoch (lastSaved, bestSaved) flags over a run, threading the
running best metric through the epochs; `best` starts at 0 (main.py line 98). -/
def epochSaves : ℚ → List ℚ → List (Bool × Bool)
  | _, [] => []
  | best, m :: rest =>
    let r := processEpoch best m
    (r.2.1, r.2.2) :: epochSaves r.1 rest

/-- The running best metric after a list of epoch metrics (main.py lines 98,
197-198). -/
def runBest : List ℚ → ℚ :=
  List.foldl (fun b m => if m > b then m else b) 0

/-! ### Per-rank file side effects of `train` (main.py lines 102-218)

```
csv_file = f'weights/step_{version}_{args.epochs}.csv'
with open(csv_file, 'w', newline='') as log:      # line 107: ALL ranks
    if args.local_rank == 0:
        logger = csv.DictWriter(log, ...)
        logger.writeheader()                      # line 112: rank 0 only
    for epoch in range(args.epochs):
        ...
        if args.local_rank == 0:                  # line 177
            last = test(args, params, ema.ema)    # test() calls plot_mAP -> savefig
            logger.writerow(...)
            torch.save(save, last_...)
            if best == current_mAP:
                torch.save(save, best_...)
```
Opening with mode `'w'` creates the file if absent and truncates it to
empty otherwise. -/

/-- The artifact files the spec talks about. -/
inductive Artifact where
  | csvLog   : Artifact
  | lastCkpt : Artifact
  | bestCkpt : Artifact
  | plotPng  : Artifact
  deriving DecidableEq, Repr

/-- A file operation an execution of `train` performs. -/
inductive FileOp where
  /-- `open(path, 'w')`: create-or-truncate to empty. -/
  | truncate : Artifact → FileOp
  /-- append/overwrite bytes of an artifact. -/
  | write : Artifact → FileOp
  deriving DecidableEq, Repr

/-- File operations of one epoch body for a process with rank `rank`;
`savesBest` is the epoch's `best == current_mAP` outcome.  Everything is
inside the `if args.local_rank == 0` block (main.py lines 177-212);
the plot write happens inside `test` (line 341 → `plot_mAP` → `savefig`). -/
def epochFileOps (rank : ℤ) (savesBest : Bool) : List FileOp :=
  if rank = 0 then
    [FileOp.write .plotPng, FileOp.write .csvLog, FileOp.write .lastCkpt]
      ++ (if savesBest then [FileOp.write .bestCkpt] else [])
  else []

/-- All file operations of `train` for a process with rank `rank`, where
`saves` lists each epoch's `best == current_mAP` outcome.  Line 107's
`open(csv_file, 'w')` runs on every rank; the header row (line 112), the
epoch bodies, and the final `strip_optimizer` rewrites (lines 217-218) are
rank-0 only. -/
def trainFileOps (rank : ℤ) (saves : List Bool) : List FileOp :=
  FileOp.truncate .csvLog
    :: (if rank = 0 then [FileOp.write .csvLog] else [])
    ++ saves.flatMap (epochFileOps rank)
    ++ (if rank = 0 then [FileOp.write .lastCkpt, FileOp.write .bestCkpt] else [])

/-! ### Metric-log file contents across runs (main.py lines 102-112, 184-192)

The log file's name depends only on the model variant and the configured
epoch count, so a rerun with the same configuration reuses the same path;
`open(csv_file, 'w')` then resets its contents to empty before the first
epoch of the new run. -/

/-- main.py line 102: the metric-log path for a variant and epoch count. -/
def csvFileName (version : String) (epochs : ℕ) : String :=
  "weights/step_" ++ version ++ "_" ++ toString epochs ++ ".csv"

/-- Contents of the log file right after line 107's `open(csv_file, 'w')`,
as a list of rows: whatever a previous run left there is discarded. -/
def csvAfterOpen (_prev : List String) : List String := []

/-- Contents of the log file after the header (rank 0 only, line 112) and a
given list of epoch rows have been emitted during the current run. -/
def csvContents (rank : ℤ) (prev : List String) (rows : List String) : List String :=
  csvAfterOpen prev ++ (if rank = 0 then "header" :: rows else [])

/-! ### `main`'s shutdown sequence (main.py lines 398-462)

```
if args.distributed:
    torch.distributed.init_process_group(...)     # line 422
...
if args.train:
    train(args, params)                           # line 440
if args.test:
    test(args, params)                            # line 442
if args.distributed:
    torch.distributed.destroy_process_group()     # line 446
torch.cuda.empty_cache()
```
There is no `try`/`finally`: an exception escaping `train` or `test`
propagates out of `main` and skips everything after the raising call. -/

/-- Observable events of an execution of `main`. -/
inductive MainEvent where
  | initGroup    : MainEvent
  | trainCall    : MainEvent
  | testCall     : MainEvent
  | destroyGroup : MainEvent
  | emptyCache   : MainEvent
  deriving DecidableEq, Repr

/-- The event trace of `main` given whether the run is distributed, which
phases are requested, and whether each phase raises.  An uncaught
exception ends the trace at the raising call. -/
def mainEvents (distributed doTrain doTest trainRaises testRaises : Bool) :
    List MainEvent :=
  (if distributed then [MainEvent.initGroup] else [])
    ++ if doTrain && trainRaises then [MainEvent.trainCall]
       else (if doTrain then [MainEvent.trainCall] else [])
         ++ if doTest && testRaises then [MainEvent.testCall]
            else (if doTest then [MainEvent.testCall] else [])
              ++ (if distributed then [MainEvent.destroyGroup] else [])
              ++ [MainEvent.emptyCache]

/-! ### Mosaic toggle (main.py lines 115-120)

```
for epoch in range(args.epochs):
    ...
    if args.epochs - epoch == 10:
        loader.dataset.mosaic = False
```
The flag starts true (the dataset is built with `augment=True`) and is
never assigned `True` anywhere in the loop. -/

/-- main.py line 119: the toggle condition at epoch index `epoch`
(Python ints, so subtraction is over ℤ). -/
def mosaicToggleFires (epochs epoch : ℕ) : Bool :=
  (epochs : ℤ) - (epoch : ℤ) == 10

/-- The mosaic flag's value after the loop headers of epochs `0, …, e` have
executed, starting from `true`. -/
def mosaicAfter (epochs e : ℕ) : Bool :=
  (List.range (e + 1)).foldl
    (fun m epoch => if mosaicToggleFires epochs epoch then false else m) true

/-! ### Evaluation and the plotting collaborator (main.py lines 307-351, 221-271)

`test` accumulates per-image metrics, then calls `plot_mAP(args)` on
line 341 with no surrounding `try`, then computes and returns
`(mean_ap, map50, m_rec, m_pre)`.  An exception raised inside `plot_mAP`
therefore propagates out of `test`; in `train`, the `test` call on line 179
is likewise unguarded, so the exception also ends the training run. -/

/-- Observable events of one execution of `test`. -/
inductive TestEvent where
  | gatherMetrics : TestEvent
  | plotCall      : TestEvent
  | computeAP     : TestEvent
  deriving DecidableEq, Repr

/-- The event trace of `test` and its returned metric tuple
(`none` when an exception escapes).  `plotRaises` says whether the
plotting collaborator raises; `metrics` is the tuple the external AP
collaborator would produce. -/
def testRun (plotRaises : Bool) (metrics : ℚ × ℚ × ℚ × ℚ) :
    List TestEvent × Option (ℚ × ℚ × ℚ × ℚ) :=
  if plotRaises then ([TestEvent.gatherMetrics, TestEvent.plotCall], none)
  else ([TestEvent.gatherMetrics, TestEvent.plotCall, TestEvent.computeAP],
        some metrics)

/-- Whether the training loop survives an epoch whose evaluation ran with
the given plotting outcome: `train` calls `test` unguarded (line 179), so
the epoch loop continues iff `test` returned a metric tuple. -/
def trainContinuesAfterEval (plotRaises : Bool) (metrics : ℚ × ℚ × ℚ × ℚ) : Bool :=
  (testRun plotRaises metrics).2.isSome

/-! ### Process identity from the environment (main.py lines 402-418)

```
parser.add_argument('--local-rank', default=0, type=int)
parser.add_argument('--local_rank', default=0, type=int)
...
args = parser.parse_args()
args.local_rank = int(os.getenv('LOCAL_RANK', 0))
args.world_size = int(os.getenv('WORLD_SIZE', 1))
args.distributed = int(os.getenv('WORLD_SIZE', 1)) > 1
```
-/

/-- The identity-relevant fields of `args` after line 418. -/
structure ProcIdentity where
  local_rank : ℤ
  world_size : ℤ
  distributed : Bool
  deriving DecidableEq, Repr

/-- main.py lines 416-418: `local_rank` and `world_size` are overwritten
from the environment (`none` = variable unset, giving the documented
defaults 0 and 1); the parsed `--local-rank`/`--local_rank` values are the
first two arguments and take no part in the result. -/
def resolveIdentity (_parsedLocalRankDash _parsedLocalRankUnderscore : ℤ)
    (envLocalRank envWorldSize : Option ℤ) : ProcIdentity :=
  { local_rank := envLocalRank.getD 0
    world_size := envWorldSize.getD 1
    distributed := decide (envWorldSize.getD 1 > 1) }

end YoloTrain

namespace YoloTrain

/-! ## Helper lemmas -/

/-- Among the global steps `0, …, n-1` there are `⌈n / acc⌉` multiples of
`acc`, i.e. `n / acc` plus one more (for step 0) unless `acc` divides `n`. -/
theorem boundary_count (acc n : ℕ) :
    (List.range n).countP (fun k => k % acc == 0) =
      n / acc + if n % acc = 0 then 0 else 1 := by
  induction n with
  | zero => simp
  | succ n ih =>
    rw [List.range_succ, List.countP_append, ih, List.countP_cons, List.countP_nil]
    have hsd := Nat.succ_div n acc
    simp only [Nat.dvd_iff_mod_eq_zero] at hsd
    by_cases h1 : n % acc = 0 <;> by_cases h2 : (n + 1) % acc = 0 <;>
      simp only [h1, h2, if_true, if_false, if_pos, if_neg, beq_iff_eq,
        decide_eq_true_eq] at hsd ⊢ <;>
      simp [h1, h2, hsd]

/-- Folding the mosaic toggle over a list of epoch indices yields `false`
iff the toggle condition fires somewhere in the list (given a `true`
start the flag is a pure "has the condition ever fired" latch). -/
theorem foldl_toggle (p : ℕ → Bool) (l : List ℕ) (m : Bool) :
    l.foldl (fun b ep => if p ep then false else b) m = (m && !l.any p) := by
  induction l generalizing m with
  | nil => simp
  | cons x xs ih =>
    rw [List.foldl_cons, ih]
    cases hx : p x <;> simp [hx]

/-- Mathlib's `round` (half up) agrees with the floor when the fractional
part is below one half. -/
theorem round_eq_floor_of_fract_lt (q : ℚ) (h : Int.fract q < 1/2) :
    round q = ⌊q⌋ := by
  have h1 : (⌊q⌋ : ℚ) ≤ q := Int.floor_le q
  have h2 : q - (⌊q⌋ : ℚ) < 1/2 := h
  rw [round_eq, Int.floor_eq_iff]
  constructor <;> push_cast <;> linarith

/-- Mathlib's `round` (half up) is the floor plus one when the fractional
part is at least one half. -/
theorem round_eq_floor_add_one_of_fract_ge (q : ℚ) (h : 1/2 ≤ Int.fract q) :
    round q = ⌊q⌋ + 1 := by
  have h1 : 1/2 ≤ q - (⌊q⌋ : ℚ) := h
  have h2 : q - (⌊q⌋ : ℚ) < 1 := Int.fract_lt_one q
  rw [round_eq, Int.floor_eq_iff]
  constructor <;> push_cast <;> linarith

/-- Away from an exact half, Python's banker's rounding agrees with
mathematical rounding. -/
theorem pythonRound_eq_round (q : ℚ) (h : Int.fract q ≠ 1/2) :
    pythonRound q = round q := by
  rcases lt_or_gt_of_ne h with hlt | hgt
  · have h' : q - (⌊q⌋ : ℚ) < 1/2 := hlt
    rw [pythonRound, round_eq_floor_of_fract_lt q hlt]
    simp only [if_pos h']
  · have h1 : ¬ (q - (⌊q⌋ : ℚ) < 1/2) := not_lt.mpr (le_of_lt hgt)
    have h2 : (1:ℚ)/2 < q - (⌊q⌋ : ℚ) := hgt
    rw [pythonRound, round_eq_floor_add_one_of_fract_ge q (le_of_lt hgt)]
    simp only [if_neg h1, if_pos h2]

/-- If `64 / x` (with `x ≥ 1` a natural number) has fractional part exactly
one half, then its floor is zero: `64/x = f + 1/2` forces
`128 = x * (2f + 1)`, and the only odd divisor of `128 = 2^7` is 1. -/
theorem fract_half_floor_zero (x : ℕ) (hx : 1 ≤ x)
    (h : Int.fract ((64 : ℚ) / x) = 1/2) : ⌊(64 : ℚ) / x⌋ = 0 := by
  set q : ℚ := 64 / x with hq
  have hx0 : (x : ℚ) ≠ 0 := Nat.cast_ne_zero.mpr (by omega)
  have hq0 : 0 ≤ q := by positivity
  have hf0 : 0 ≤ ⌊q⌋ := Int.floor_nonneg.mpr hq0
  have heq : q = (⌊q⌋ : ℚ) + 1/2 := by
    have hfl := Int.fract_add_floor q
    rw [h] at hfl
    linarith
  have hQ : (128 : ℚ) = (x : ℚ) * (2 * (⌊q⌋ : ℚ) + 1) := by
    rw [hq] at heq
    field_simp at heq
    linear_combination heq
  have hfp : ((⌊q⌋.toNat : ℤ)) = ⌊q⌋ := Int.toNat_of_nonneg hf0
  have hN : (128 : ℕ) = x * (2 * ⌊q⌋.toNat + 1) := by
    have hZ : (128 : ℤ) = (x : ℤ) * (2 * ⌊q⌋ + 1) := by exact_mod_cast hQ
    rw [← hfp] at hZ
    exact_mod_cast hZ
  have hdvd : (2 * ⌊q⌋.toNat + 1) ∣ 2 ^ 7 := ⟨x, by rw [show 2^7 = 128 from rfl, hN]; ring⟩
  obtain ⟨i, _, hieq⟩ := (Nat.dvd_prime_pow Nat.prime_two).mp hdvd
  rcases Nat.eq_zero_or_pos i with hi0 | hip
  · subst hi0
    simp only [pow_zero] at hieq
    omega
  · exfalso
    have h2d : 2 ∣ 2 ^ i := dvd_pow_self 2 (by omega)
    rw [← hieq] at h2d
    omega

/-! ## Theorems -/

/-- C2: for every `accumulate ≥ 1`, an optimizer update is attempted at a
micro-step iff the global step `i + num_steps * epoch` is `≡ 0 mod
accumulate`; over the `n` global steps `0, …, n-1` the number of update
attempts is `n / accumulate`, plus one more when step 0 contributes an
extra boundary (i.e. unless `accumulate` divides `n`); with
`accumulate = 1` every step updates. -/
theorem C2_update_iff_mod_zero (acc : ℕ) (hacc : 1 ≤ acc) :
    (∀ i num_steps epoch,
        shouldUpdate (globalStep i num_steps epoch) acc = true
          ↔ globalStep i num_steps epoch % acc = 0)
    ∧ (∀ n, updateAttempts n acc = n / acc + if n % acc = 0 then 0 else 1)
    ∧ (acc = 1 → ∀ k, shouldUpdate k acc = true) := by
  refine ⟨fun i ns e => by simp [shouldUpdate], fun n => boundary_count acc n, ?_⟩
  rintro rfl k
  simp [shouldUpdate, Nat.mod_one]

/-- Witness for `C2_update_iff_mod_zero` at `accumulate = 2` (and, via its
count clause, the spec scenario of 4 micro-steps giving 2 updates). -/
theorem C2_update_iff_mod_zero_witness :
    1 ≤ 2
    ∧ ((∀ i num_steps epoch,
          shouldUpdate (globalStep i num_steps epoch) 2 = true
            ↔ globalStep i num_steps epoch % 2 = 0)
      ∧ (∀ n, updateAttempts n 2 = n / 2 + if n % 2 = 0 then 0 else 1)
      ∧ (2 = 1 → ∀ k, shouldUpdate k 2 = true)) :=
  ⟨by decide, C2_update_iff_mod_zero 2 (by decide)⟩

/-- C3 counterexample: with `accumulate = 1` and a gradient overflow at
step 0, the scaler skips the optimizer step, yet `ema.update` still runs —
the call on line 165 sits inside the `step % accumulate == 0` branch with
no check of whether `amp_scale.step` actually stepped.  Over that 1-step
run the shadow tracker receives 1 update while the optimizer receives 0.
Moreover, even with no overflow at all, 5 steps at `accumulate = 2` give
the tracker 3 updates, not `⌊5/2⌋ = 2`. -/
theorem C3_counterexample :
    emaUpdated true 1 0 = true
    ∧ optimizerStepped (fun _ => true) 1 0 = false
    ∧ emaUpdateCount true 1 1 = 1
    ∧ optimizerStepCount (fun _ => true) 1 1 = 0
    ∧ emaUpdateCount true 2 5 = 3
    ∧ optimizerStepCount (fun _ => false) 2 5 = 3
    ∧ 5 / 2 = 2 := by decide

/-- C3 amended: when the EMA object exists (rank 0), `ema.update` is
invoked exactly at the accumulation boundaries (`step % accumulate == 0`),
regardless of whether the precision scaler skipped the optimizer step; a
run of `n` steps gives the tracker `⌈n / accumulate⌉` updates (`n /
accumulate`, plus one unless `accumulate ∣ n`), an upper bound on — not
always equal to — the number of successful optimizer updates; on non-primary
ranks the tracker is never updated. -/
theorem C3_ema_at_every_boundary (acc : ℕ) (hacc : 1 ≤ acc) :
    (∀ k, emaUpdated true acc k = shouldUpdate k acc)
    ∧ (∀ overflow k, optimizerStepped overflow acc k = true → emaUpdated true acc k = true)
    ∧ (∀ n, emaUpdateCount true acc n = n / acc + if n % acc = 0 then 0 else 1)
    ∧ (∀ overflow n, optimizerStepCount overflow acc n ≤ emaUpdateCount true acc n)
    ∧ (∀ k, emaUpdated false acc k = false) := by
  refine ⟨fun k => by simp [emaUpdated], ?_, fun n => ?_, fun overflow n => ?_, fun k => by simp [emaUpdated]⟩
  · intro overflow k h
    simp only [optimizerStepped, Bool.and_eq_true] at h
    simp [emaUpdated, h.1]
  · simpa only [emaUpdateCount, emaUpdated, Bool.and_true, shouldUpdate]
      using boundary_count acc n
  · exact List.countP_mono_left fun k _ h => by
      simp only [optimizerStepped, Bool.and_eq_true] at h
      simp [emaUpdated, h.1]

/-- Witness for `C3_ema_at_every_boundary` at `accumulate = 2`. -/
theorem C3_ema_at_every_boundary_witness :
    1 ≤ 2
    ∧ ((∀ k, emaUpdated true 2 k = shouldUpdate k 2)
      ∧ (∀ overflow k, optimizerStepped overflow 2 k = true → emaUpdated true 2 k = true)
      ∧ (∀ n, emaUpdateCount true 2 n = n / 2 + if n % 2 = 0 then 0 else 1)
      ∧ (∀ overflow n, optimizerStepCount overflow 2 n ≤ emaUpdateCount true 2 n)
      ∧ (∀ k, emaUpdated false 2 k = false)) :=
  ⟨by decide, C3_ema_at_every_boundary 2 (by decide)⟩

/-- C6: when the run has at least 10 epochs, the mosaic toggle condition
`epochs - epoch == 10` holds at exactly one epoch index of the run, namely
`epochs - 10`; the flag (starting `true`) is `false` after epoch `e`'s
loop header iff `e ≥ epochs - 10`, i.e. it is switched off exactly there
and never re-enabled for the remainder of the run. -/
theorem C6_mosaic_one_way (epochs : ℕ) (h : 10 ≤ epochs) :
    (List.range epochs).countP (fun e => mosaicToggleFires epochs e) = 1
    ∧ (∀ e, mosaicToggleFires epochs e = true ↔ e = epochs - 10)
    ∧ (∀ e, mosaicAfter epochs e = false ↔ epochs - 10 ≤ e) := by
  have hfire : ∀ e, mosaicToggleFires epochs e = true ↔ e = epochs - 10 := by
    intro e
    simp only [mosaicToggleFires, beq_iff_eq]
    omega
  have hpred : (fun e => mosaicToggleFires epochs e) = (fun e => e == epochs - 10) := by
    funext e
    rw [Bool.eq_iff_iff, beq_iff_eq]
    exact hfire e
  refine ⟨?_, hfire, fun e => ?_⟩
  · rw [hpred, ← List.count_eq_countP]
    exact List.count_eq_one_of_mem (List.nodup_range epochs)
      (List.mem_range.mpr (by omega))
  · rw [mosaicAfter, foldl_toggle]
    simp only [Bool.true_and, Bool.not_eq_false', List.any_eq_true, List.mem_range]
    constructor
    · rintro ⟨ep, hep, hfireep⟩
      have := (hfire ep).mp hfireep
      omega
    · intro hle
      exact ⟨epochs - 10, by omega, (hfire _).mpr rfl⟩

/-- Witness for `C6_mosaic_one_way` at `epochs = 20` (the spec's scenario:
the toggle fires exactly once, at epoch index 10, and stays off). -/
theorem C6_mosaic_one_way_witness :
    10 ≤ 20
    ∧ ((List.range 20).countP (fun e => mosaicToggleFires 20 e) = 1
      ∧ (∀ e, mosaicToggleFires 20 e = true ↔ e = 20 - 10)
      ∧ (∀ e, mosaicAfter 20 e = false ↔ 20 - 10 ≤ e)) :=
  ⟨by decide, C6_mosaic_one_way 20 (by decide)⟩

/-- C8: for every `batch_size ≥ 1` and `world_size ≥ 1`, the derived
accumulation count equals `max(round(64 / (batch_size × world_size)), 1)`
(stated with the mathematical rounding convention: the source's Python
half-to-even `round` disagrees with it only when `64/(bs·ws)` is an exact
half, which forces `bs·ws = 128`, where the `max` with 1 erases the
difference), hence is always ≥ 1; and the configured weight decay is
scaled by exactly `batch_size × world_size × accumulate / 64`. -/
theorem C8_accumulate_and_weight_decay (bs ws : ℕ) (hbs : 1 ≤ bs) (hws : 1 ≤ ws) :
    accumulate bs ws = accumulateSpec bs ws
    ∧ 1 ≤ accumulate bs ws
    ∧ ∀ wd : ℚ, scaledWeightDecay wd bs ws =
        wd * ((bs : ℚ) * (ws : ℚ) * ((accumulate bs ws : ℤ) : ℚ) / 64) := by
  refine ⟨?_, le_max_right _ 1, fun wd => rfl⟩
  simp only [accumulate, accumulateSpec]
  set q : ℚ := 64 / ((bs : ℚ) * (ws : ℚ)) with hqdef
  by_cases h : Int.fract q = 1/2
  · have hx : 1 ≤ bs * ws := Nat.one_le_iff_ne_zero.mpr (Nat.mul_ne_zero (by omega) (by omega))
    have hq' : q = 64 / ((bs * ws : ℕ) : ℚ) := by rw [hqdef]; push_cast; rfl
    have hfl : ⌊q⌋ = 0 := by
      rw [hq']
      exact fract_half_floor_zero (bs * ws) hx (by rw [← hq']; exact h)
    have hq12 : q = 1/2 := by
      have hsum := Int.fract_add_floor q
      rw [h, hfl] at hsum
      simpa using hsum.symm
    rw [hq12]
    norm_num [pythonRound, round_eq]
  · rw [pythonRound_eq_round q h]

/-- Witness for `C8_accumulate_and_weight_decay` at batch size 32, world
size 1 (the source's default single-process configuration, giving
accumulation count 2). -/
theorem C8_accumulate_and_weight_decay_witness :
    1 ≤ 32 ∧ 1 ≤ 1
    ∧ (accumulate 32 1 = accumulateSpec 32 1
      ∧ 1 ≤ accumulate 32 1
      ∧ ∀ wd : ℚ, scaledWeightDecay wd 32 1 =
          wd * ((32 : ℚ) * (1 : ℚ) * ((accumulate 32 1 : ℤ) : ℚ) / 64)) :=
  ⟨by decide, by decide, C8_accumulate_and_weight_decay 32 1 (by decide) (by decide)⟩

/-- C9: after argument parsing, `local_rank` is unconditionally overwritten
with the `LOCAL_RANK` environment variable (default 0) and `world_size`
with `WORLD_SIZE` (default 1); the `--local-rank`/`--local_rank`
command-line values never influence the result, and distributed mode is
entered iff `WORLD_SIZE > 1`. -/
theorem C9_identity_from_env :
    (∀ a a' b b' envLR envWS,
        resolveIdentity a b envLR envWS = resolveIdentity a' b' envLR envWS)
    ∧ (∀ envLR envWS, (resolveIdentity 0 0 envLR envWS).local_rank = envLR.getD 0
        ∧ (resolveIdentity 0 0 envLR envWS).world_size = envWS.getD 1
        ∧ ((resolveIdentity 0 0 envLR envWS).distributed = true ↔ 1 < envWS.getD 1)) := by
  refine ⟨fun _ _ _ _ _ _ => rfl, fun envLR envWS => ⟨rfl, rfl, ?_⟩⟩
  simp [resolveIdentity]

/-- C10: at run start the metric-log file for the configured variant and
epoch count is opened in write mode, which truncates it: whatever rows a
previous run with the same configuration left there are gone before the
first epoch row of the new run, and within the run rows are only
appended. -/
theorem C10_log_truncated_at_run_start :
    (∀ prev : List String, csvAfterOpen prev = [])
    ∧ (∀ rank prev prev' rows, csvContents rank prev rows = csvContents rank prev' rows)
    ∧ (∀ prev rows row, csvContents 0 prev (rows ++ [row]) = csvContents 0 prev rows ++ [row]) := by
  refine ⟨fun _ => rfl, fun _ _ _ _ => rfl, fun prev rows row => ?_⟩
  simp [csvContents, csvAfterOpen]

/-- C7 counterexample: when the plotting collaborator raises, `test` does
NOT return its metric tuple, and the training loop does not continue —
`plot_mAP(args)` on line 341 is called with no surrounding `try`, so the
exception propagates out of `test` and out of the epoch body. -/
theorem C7_counterexample :
    (testRun true (1/2, 1/2, 1/2, 1/2)).2 = none
    ∧ trainContinuesAfterEval true (1/2, 1/2, 1/2, 1/2) = false := by
  simp [testRun, trainContinuesAfterEval]

/-- C7 amended: a failure raised by the plotting collaborator propagates:
evaluation aborts without returning its metric tuple and the training loop
does not continue past that epoch; only when plotting succeeds does `test`
return its metrics and training continue. -/
theorem C7_plot_failure_propagates (metrics : ℚ × ℚ × ℚ × ℚ) :
    (testRun false metrics).2 = some metrics
    ∧ (testRun true metrics).2 = none
    ∧ trainContinuesAfterEval false metrics = true
    ∧ trainContinuesAfterEval true metrics = false := by
  simp [testRun, trainContinuesAfterEval]

/-- C5 counterexample: a distributed execution in which `train` raises
joins the process group but never reaches `destroy_process_group` — the
teardown on line 446 is straight-line code after the `train(args, params)`
call, with no `try`/`finally`. -/
theorem C5_counterexample :
    MainEvent.initGroup ∈ mainEvents true true false true false
    ∧ MainEvent.destroyGroup ∉ mainEvents true true false true false := by
  decide

/-- C5 amended: in a distributed run the process group is torn down only on
the normal path: `destroy_process_group` is reached iff neither a requested
`train` phase nor a requested `test` phase raises; on every error path the
group is left standing. -/
theorem C5_teardown_only_on_normal_path (doTrain doTest trainRaises testRaises : Bool) :
    MainEvent.destroyGroup ∈ mainEvents true doTrain doTest trainRaises testRaises
      ↔ ¬(doTrain = true ∧ trainRaises = true) ∧ ¬(doTest = true ∧ testRaises = true) := by
  cases doTrain <;> cases doTest <;> cases trainRaises <;> cases testRaises <;> decide

/-- C4 counterexample: a secondary process (rank 1) does perform a file
operation on a monitored artifact: line 107's `open(csv_file, 'w')` runs
on every rank, before the `if args.local_rank == 0` guard, creating or
truncating the metric-log file. -/
theorem C4_counterexample :
    trainFileOps 1 [true, true] = [FileOp.truncate Artifact.csvLog]
    ∧ FileOp.truncate Artifact.csvLog ∈ trainFileOps 1 [true, true] := by
  decide

/-- C4 amended: only the primary process writes checkpoint data, log rows,
or plot artifacts, but every process — secondaries included — opens the
metric-log file in write mode, creating or truncating it; that single
truncation is the only file operation a secondary performs. -/
theorem C4_secondary_only_truncates (rank : ℤ) (h : rank ≠ 0) (saves : List Bool) :
    trainFileOps rank saves = [FileOp.truncate Artifact.csvLog] := by
  have hflat : saves.flatMap (epochFileOps rank) = [] := by
    induction saves with
    | nil => rfl
    | cons b bs ih => simp [List.flatMap_cons, epochFileOps, if_neg h, ih]
  simp [trainFileOps, if_neg h, hflat]

/-- Witness for `C4_secondary_only_truncates` at rank 1 with one epoch. -/
theorem C4_secondary_only_truncates_witness :
    (1 : ℤ) ≠ 0 ∧ trainFileOps 1 [true] = [FileOp.truncate Artifact.csvLog] :=
  ⟨by decide, C4_secondary_only_truncates 1 (by decide) [true]⟩

/-- C1 counterexample: with the epoch metric sequence `[0.3, 0.3]` the best
checkpoint is written at BOTH epochs, although the second epoch's metric
equals the best so far without exceeding it: after `if current_mAP > best`
leaves `best` unchanged, line 210's `if best == current_mAP` still holds on
an exact tie. -/
theorem C1_counterexample :
    epochSaves 0 [3/10, 3/10] = [(true, true), (true, true)]
    ∧ ¬ ((3 : ℚ)/10 > runBest [3/10]) := by
  norm_num [epochSaves, processEpoch, runBest]

/-- C1 amended: the best checkpoint is overwritten at an epoch iff the
epoch's mAP is greater than OR EQUAL to the best metric recorded so far
(an exact tie does overwrite), while the last checkpoint is overwritten
unconditionally every epoch; on the spec's scenario `[0.10, 0.30, 0.25,
0.40]` the best checkpoint is written at epochs 1, 2 and 4 and the final
best metric is 0.40. -/
theorem C1_best_overwritten_iff_ge :
    (∀ best m rest, (epochSaves best (m :: rest)).head? =
        some (true, decide (best ≤ m)))
    ∧ epochSaves 0 [1/10, 3/10, 25/100, 4/10] =
        [(true, true), (true, true), (true, false), (true, true)]
    ∧ runBest [1/10, 3/10, 25/100, 4/10] = 4/10 := by
  refine ⟨fun best m rest => ?_, by norm_num [epochSaves, processEpoch],
    by norm_num [runBest]⟩
  simp only [epochSaves, processEpoch, List.head?_cons, Option.some.injEq,
    Prod.mk.injEq, true_and]
  rcases lt_or_le best m with hlt | hle
  · rw [if_pos hlt, decide_eq_decide]
    exact ⟨fun _ => le_of_lt hlt, fun _ => rfl⟩
  · rw [if_neg (not_lt.mpr hle), decide_eq_decide]
    exact ⟨fun h => le_of_eq h, fun h => le_antisymm h hle⟩

end YoloTrain
